import Mathlib

/-!
Verification of the NFT value-storage repository: a shallow embedding of the
frontend mint/redeem flows (Mint.tsx, Redeem.tsx, Navbar.tsx, WalletContext.tsx)
and, for the parts of the protocol whose implementation (mintV4.py, redeemV4.py)
is described only by the documentation, models built faithfully from the spec.
All numbers are exact (Nat/Int/Rat); the machine float used by the browser for
the ALGO amount is modelled by an exact rational.
-/

namespace NFTValueStore

/-! ### Mint page (Mint.tsx): form state, validation guard, payload -/

/-- The state of the Mint form: connected wallet (null when disconnected),
asset name, unit symbol, and the ALGO amount to lock, held as an exact
rational standing for the numeric input value. -/
structure MintForm where
  walletAddress : Option String
  assetName : String
  assetUnit : String
  algoAmount : ℚ
deriving DecidableEq, Repr

/-- The input guard at the top of handleSubmit:
falsy name, falsy unit, or amount less than or equal to zero. -/
def mintInputInvalid (f : MintForm) : Bool :=
  f.assetName == "" || f.assetUnit == "" || decide (f.algoAmount ≤ 0)

/-- Conversion of the ALGO input to microAlgos: floor of the amount
times one million, as in the payload construction of handleSubmit. -/
def microAlgosOf (a : ℚ) : ℤ :=
  Int.floor (a * 1000000)

/-- The JSON payload posted to the backend mint endpoint. -/
structure MintPayload where
  creator_address : String
  asset_name : String
  asset_unit : String
  locked_amount : ℤ
deriving DecidableEq, Repr

/-- Payload construction in handleSubmit: creator address is the connected
wallet, locked amount is the floored microAlgo conversion. -/
def mkMintPayload (wallet : String) (f : MintForm) : MintPayload :=
  { creator_address := wallet
    asset_name := f.assetName
    asset_unit := f.assetUnit
    locked_amount := microAlgosOf f.algoAmount }

/-! ### Mint flow steps

handleSubmit drives eight sequential steps (six backend calls and two wallet
signatures).  The constructor `verifyMint` names the post-transfer verification
step that the specification requires; it is part of the step vocabulary so that
its absence from the code's sequence can be stated. -/

inductive MintStep where
  | getFunding
  | signFunding
  | submitFunding
  | createNFT
  | getOptin
  | signOptin
  | submitOptin
  | transferNFT
  | verifyMint
deriving DecidableEq, Repr

/-- The sequence of steps handleSubmit performs, in source order:
POST /mint, sign funding, POST /submit_funding, POST /create_nft,
POST /optin, sign opt-in, POST /submit_optin, POST /transfer_nft. -/
def mintStepOrder : List MintStep :=
  [.getFunding, .signFunding, .submitFunding, .createNFT,
   .getOptin, .signOptin, .submitOptin, .transferNFT]

/-- Which steps mutate the ledger: submitting the funding payment,
creating the asset, submitting the opt-in, and transferring the unit. -/
def MintStep.mutates : MintStep → Bool
  | .submitFunding => true
  | .createNFT => true
  | .submitOptin => true
  | .transferNFT => true
  | _ => false

/-- Run a list of steps in order against an oracle saying which steps
succeed; each failure throws, so the run stops at the first failing step.
Returns the executed steps (the failing attempt included) and whether the
whole list succeeded. -/
def runSteps (ok : MintStep → Bool) : List MintStep → List MintStep × Bool
  | [] => ([], true)
  | s :: rest =>
    if ok s then
      let r := runSteps ok rest
      (s :: r.1, r.2)
    else ([s], false)

/-- Outcome of a handleSubmit invocation. -/
inductive MintOutcome where
  | notConnected
  | validationError
  | aborted (trace : List MintStep)
  | success (trace : List MintStep)
deriving DecidableEq, Repr

/-- handleSubmit: alert and return when no wallet is connected; alert and
return when the input guard fires; otherwise run the eight steps in order,
reporting success exactly when all of them succeeded.  After the transfer
step the code only shows the success alert and resets the form: no step
follows the transfer. -/
def handleSubmit (f : MintForm) (ok : MintStep → Bool) : MintOutcome :=
  match f.walletAddress with
  | none => .notConnected
  | some _ =>
    if mintInputInvalid f then .validationError
    else
      let r := runSteps ok mintStepOrder
      if r.2 then .success r.1 else .aborted r.1

/-- The steps a finished handleSubmit invocation executed. -/
def MintOutcome.trace : MintOutcome → List MintStep
  | .aborted t => t
  | .success t => t
  | _ => []

/-! ### Helper lemmas about runSteps -/

theorem runSteps_decomp (ok : MintStep → Bool) :
    ∀ l : List MintStep, ∃ rest, l = (runSteps ok l).1 ++ rest := by
  intro l
  induction l with
  | nil => exact ⟨[], rfl⟩
  | cons s rest ih =>
    by_cases h : ok s = true
    · obtain ⟨r, hr⟩ := ih
      exact ⟨r, by simp [runSteps, h]; exact hr⟩
    · have h2 : ok s = false := by simpa using h
      exact ⟨rest, by simp [runSteps, h2]⟩

theorem runSteps_true (ok : MintStep → Bool) :
    ∀ l : List MintStep, (runSteps ok l).2 = true →
      (runSteps ok l).1 = l ∧ ∀ s ∈ l, ok s = true := by
  intro l
  induction l with
  | nil => intro _; exact ⟨rfl, by simp⟩
  | cons s rest ih =>
    intro h
    by_cases hs : ok s = true
    · simp only [runSteps, hs, if_true] at h ⊢
      obtain ⟨h1, h2⟩ := ih h
      refine ⟨by simp [h1], ?_⟩
      intro x hx
      rcases List.mem_cons.mp hx with hx | hx
      · exact hx ▸ hs
      · exact h2 x hx
    · have h2 : ok s = false := by simpa using hs
      simp [runSteps, h2] at h

theorem runSteps_false (ok : MintStep → Bool) :
    ∀ l : List MintStep, (runSteps ok l).2 = false →
      ∃ p s, (runSteps ok l).1 = p ++ [s] ∧ ok s = false ∧ ∀ x ∈ p, ok x = true := by
  intro l
  induction l with
  | nil => intro h; simp [runSteps] at h
  | cons s rest ih =>
    intro h
    by_cases hs : ok s = true
    · simp only [runSteps, hs, if_true] at h ⊢
      obtain ⟨p, s0, h1, h2, h3⟩ := ih h
      refine ⟨s :: p, s0, by simp [h1], h2, ?_⟩
      intro x hx
      rcases List.mem_cons.mp hx with hx | hx
      · exact hx ▸ hs
      · exact h3 x hx
    · have h2 : ok s = false := by simpa using hs
      exact ⟨[], s, by simp [runSteps, h2], h2, by simp⟩

theorem handleSubmit_success_eq (f : MintForm) (ok : MintStep → Bool)
    (t : List MintStep) (h : handleSubmit f ok = .success t) :
    t = (runSteps ok mintStepOrder).1 ∧ (runSteps ok mintStepOrder).2 = true := by
  obtain ⟨wa, an, au, am⟩ := f
  cases wa with
  | none => simp [handleSubmit] at h
  | some w0 =>
    simp only [handleSubmit] at h
    by_cases hv : mintInputInvalid ⟨some w0, an, au, am⟩ = true
    · simp [hv] at h
    · have hv2 : mintInputInvalid ⟨some w0, an, au, am⟩ = false := by simpa using hv
      simp only [hv2, Bool.false_eq_true, if_false] at h
      by_cases hr : (runSteps ok mintStepOrder).2 = true
      · simp only [hr, if_true, MintOutcome.success.injEq] at h
        exact ⟨h.symm, hr⟩
      · have hr2 : (runSteps ok mintStepOrder).2 = false := by simpa using hr
        simp [hr2] at h

theorem handleSubmit_aborted_eq (f : MintForm) (ok : MintStep → Bool)
    (t : List MintStep) (h : handleSubmit f ok = .aborted t) :
    t = (runSteps ok mintStepOrder).1 ∧ (runSteps ok mintStepOrder).2 = false := by
  obtain ⟨wa, an, au, am⟩ := f
  cases wa with
  | none => simp [handleSubmit] at h
  | some w0 =>
    simp only [handleSubmit] at h
    by_cases hv : mintInputInvalid ⟨some w0, an, au, am⟩ = true
    · simp [hv] at h
    · have hv2 : mintInputInvalid ⟨some w0, an, au, am⟩ = false := by simpa using hv
      simp only [hv2, Bool.false_eq_true, if_false] at h
      by_cases hr : (runSteps ok mintStepOrder).2 = true
      · simp [hr] at h
      · have hr2 : (runSteps ok mintStepOrder).2 = false := by simpa using hr
        simp only [hr2, Bool.false_eq_true, if_false, MintOutcome.aborted.injEq] at h
        exact ⟨h.symm, hr2⟩

/-! ### Claim theorems about the mint flow -/

/-- C4: with a wallet connected, handleSubmit returns the validation failure
exactly when the name is empty, the unit symbol is empty, or the amount is not
strictly positive; a validation failure executes no step (no backend call, no
transaction), and any run that proceeds past validation has a non-empty name,
a non-empty unit symbol, and a strictly positive amount. -/
theorem mint_validation_gate (f : MintForm) (w : String) (ok : MintStep → Bool)
    (hw : f.walletAddress = some w) :
    ((f.assetName = "" ∨ f.assetUnit = "" ∨ f.algoAmount ≤ 0) ↔
       handleSubmit f ok = .validationError)
    ∧ (handleSubmit f ok = .validationError → (handleSubmit f ok).trace = [])
    ∧ (∀ t, handleSubmit f ok = .success t ∨ handleSubmit f ok = .aborted t →
        f.assetName ≠ "" ∧ f.assetUnit ≠ "" ∧ 0 < f.algoAmount) := by
  have hiff : mintInputInvalid f = true ↔
      (f.assetName = "" ∨ f.assetUnit = "" ∨ f.algoAmount ≤ 0) := by
    simp [mintInputInvalid, or_assoc]
  by_cases hv : mintInputInvalid f = true
  · have hout : handleSubmit f ok = .validationError := by
      simp [handleSubmit, hw, hv]
    refine ⟨⟨fun _ => hout, fun _ => hiff.mp hv⟩, fun _ => by simp [hout, MintOutcome.trace], ?_⟩
    intro t ht
    rcases ht with ht | ht <;> rw [hout] at ht <;> exact absurd ht (by simp)
  · have hv2 : mintInputInvalid f = false := by simpa using hv
    have hcond : ¬ (f.assetName = "" ∨ f.assetUnit = "" ∨ f.algoAmount ≤ 0) := by
      intro hc
      exact hv (hiff.mpr hc)
    push_neg at hcond
    have hout : handleSubmit f ok ≠ .validationError := by
      simp only [handleSubmit, hw, hv2, if_false, Bool.false_eq_true]
      by_cases hr : (runSteps ok mintStepOrder).2 = true <;> simp [hr]
    refine ⟨⟨fun hc => absurd hc (by simpa using hcond), fun h => absurd h hout⟩,
      fun h => absurd h hout, ?_⟩
    intro t _
    exact ⟨hcond.1, hcond.2.1, hcond.2.2⟩

/-- C4 witness: a concrete request with empty name fails validation with no
step executed, and a concrete valid request with every step succeeding does
not fail validation. -/
theorem mint_validation_gate_witness :
    (handleSubmit ⟨some "ADDR", "", "TCK", 5⟩ (fun _ => true) = .validationError
      ∧ (handleSubmit ⟨some "ADDR", "", "TCK", 5⟩ (fun _ => true)).trace = [])
    ∧ ("Ticket" ≠ "" ∧ "TCK" ≠ "" ∧ (0 : ℚ) < 5) := by
  have h1 := mint_validation_gate ⟨some "ADDR", "", "TCK", 5⟩ "ADDR" (fun _ => true) rfl
  have h2 := mint_validation_gate ⟨some "ADDR", "Ticket", "TCK", 5⟩ "ADDR" (fun _ => true) rfl
  have hvE : handleSubmit ⟨some "ADDR", "", "TCK", 5⟩ (fun _ => true) = .validationError :=
    h1.1.mp (Or.inl rfl)
  refine ⟨⟨hvE, h1.2.1 hvE⟩, ?_⟩
  exact h2.2.2 mintStepOrder (Or.inl (by decide))

/-- C5: every mint run executes its steps as a prefix of the fixed source
order, so its ledger-mutating steps happen as a prefix of
funding, creation, opt-in, transfer; a fully successful run executes exactly
the source order, and an aborted run executed a run of succeeding steps
followed by the single failing step, with nothing after it. -/
theorem mint_steps_in_fixed_order (f : MintForm) (ok : MintStep → Bool)
    (t : List MintStep)
    (h : handleSubmit f ok = .success t ∨ handleSubmit f ok = .aborted t) :
    (∃ rest, mintStepOrder = t ++ rest)
    ∧ (∃ rest, [MintStep.submitFunding, .createNFT, .submitOptin, .transferNFT] =
        t.filter MintStep.mutates ++ rest)
    ∧ (handleSubmit f ok = .success t → t = mintStepOrder)
    ∧ (handleSubmit f ok = .aborted t →
        ∃ p s, t = p ++ [s] ∧ ok s = false ∧ ∀ x ∈ p, ok x = true) := by
  have htr : t = (runSteps ok mintStepOrder).1 := by
    rcases h with h | h
    · exact (handleSubmit_success_eq f ok t h).1
    · exact (handleSubmit_aborted_eq f ok t h).1
  obtain ⟨rest, hrest⟩ := runSteps_decomp ok mintStepOrder
  have hpre : ∃ r, mintStepOrder = t ++ r := ⟨rest, by rw [htr]; exact hrest⟩
  refine ⟨hpre, ?_, ?_, ?_⟩
  · obtain ⟨r, hr⟩ := hpre
    refine ⟨r.filter MintStep.mutates, ?_⟩
    have hfull : mintStepOrder.filter MintStep.mutates =
        [MintStep.submitFunding, .createNFT, .submitOptin, .transferNFT] := by decide
    rw [← hfull, hr, List.filter_append]
  · intro hs
    rw [htr, (runSteps_true ok mintStepOrder (handleSubmit_success_eq f ok t hs).2).1]
  · intro ha
    obtain ⟨p, s, h1, h2, h3⟩ :=
      runSteps_false ok mintStepOrder (handleSubmit_aborted_eq f ok t ha).2
    exact ⟨p, s, htr ▸ h1, h2, h3⟩

/-- C5 witness: for a run whose create step is rejected, the executed trace is
the three steps up to the failure, its mutating steps are a prefix of the
mutating order, and the failing step ends the trace. -/
theorem mint_steps_in_fixed_order_witness :
    ∃ rest, mintStepOrder =
      [MintStep.getFunding, .signFunding, .submitFunding, .createNFT] ++ rest := by
  have h := mint_steps_in_fixed_order ⟨some "ADDR", "Ticket", "TCK", 5⟩
    (fun s => !(s == .createNFT))
    [MintStep.getFunding, .signFunding, .submitFunding, .createNFT]
    (Or.inr (by decide))
  exact h.1

/-- C6: the locked amount of the payload built by handleSubmit is the floor
of the ALGO amount times one million — an integer number of microAlgos,
within one micro-unit below the exact product. -/
theorem mint_payload_microalgos (w : String) (f : MintForm) :
    (mkMintPayload w f).locked_amount = Int.floor (f.algoAmount * 1000000)
    ∧ ((mkMintPayload w f).locked_amount : ℚ) ≤ f.algoAmount * 1000000
    ∧ f.algoAmount * 1000000 < (mkMintPayload w f).locked_amount + 1 := by
  refine ⟨rfl, ?_, ?_⟩
  · exact Int.floor_le (f.algoAmount * 1000000)
  · exact_mod_cast Int.lt_floor_add_one (f.algoAmount * 1000000)

/-- C6 witness: locking five ALGO submits exactly five million microAlgos. -/
theorem mint_payload_microalgos_witness :
    (mkMintPayload "ADDR" ⟨some "ADDR", "Ticket", "TCK", 5⟩).locked_amount = 5000000 := by
  rw [(mint_payload_microalgos "ADDR" ⟨some "ADDR", "Ticket", "TCK", 5⟩).1]
  norm_num

/-- C1 (code evaluated at the failing input): a mint run with name Ticket,
unit TCK, five ALGO and every backend call and signature succeeding is
reported successful having executed exactly the eight coded steps, and the
verification step — re-fetching the asset, recomputing the fingerprint,
checking reserve against the escrow address — is not among them: success is
reported without any verification step having run. -/
theorem mint_success_reported_without_verification :
    handleSubmit ⟨some "CREATOR", "Ticket", "TCK", 5⟩ (fun _ => true) =
      .success mintStepOrder
    ∧ MintStep.verifyMint ∉ mintStepOrder
    ∧ MintStep.verifyMint ∉
        (handleSubmit ⟨some "CREATOR", "Ticket", "TCK", 5⟩ (fun _ => true)).trace := by
  refine ⟨by decide, by decide, by decide⟩

/-! ### Redeem page (Redeem.tsx) -/

/-- An NFT entry as the Redeem page would list it. -/
structure NFTAsset where
  assetId : ℕ
  name : String
  unitName : String
  amount : ℕ
deriving DecidableEq, Repr

/-- Observable actions the redeem interface can take.  The constructors for
backend calls and transaction submissions exist so that their absence from
the executed actions is a meaningful statement. -/
inductive UIAction where
  | alertMsg (msg : String)
  | backendCall (endpoint : String)
  | submitTxn (description : String)
deriving DecidableEq, Repr

/-- handleBurn: with no selection, alert asking for one; with a selection,
alert naming the asset id.  The comment in the source marks the backend and
blockchain logic as future work, so no other action is taken. -/
def handleBurn : Option NFTAsset → List UIAction
  | none => [.alertMsg "Select an NFT to burn"]
  | some nft => [.alertMsg ("Burn NFT with Asset ID: " ++ toString nft.assetId)]

/-- One asset of an account, as returned by the account-information query. -/
structure AccountAsset where
  assetId : ℕ
  amount : ℕ
  decimals : ℕ
  name : String
  unitName : String
deriving DecidableEq, Repr

/-- Result of the account-information query made by fetchNFTs. -/
structure AccountInfo where
  assets : List AccountAsset
deriving DecidableEq, Repr

/-- Component state of the Redeem page: the listed NFTs and the selection. -/
structure RedeemState where
  nfts : List NFTAsset
  selectedNFT : Option NFTAsset
deriving DecidableEq, Repr

/-- The useState initial values of the Redeem page: empty list, no selection. -/
def redeemPageStart : RedeemState :=
  { nfts := [], selectedNFT := none }

/-- fetchNFTs: returns early when no wallet is connected; otherwise performs
the account-information fetch, but the filtering of the result and the
assignment to the NFT list (source lines 79 to 89) are commented out, so the
component state is left unchanged. -/
def fetchNFTs (walletAddress : Option String) (info : AccountInfo)
    (st : RedeemState) : RedeemState :=
  match walletAddress with
  | none => st
  | some _ =>
    let _ := info.assets
    st

/-- Events the Redeem page reacts to: completion of the fetch effect, and a
click on a rendered NFT card. -/
inductive RedeemEvent where
  | fetchCompleted (info : AccountInfo)
  | cardClicked (nft : NFTAsset)

/-- Event handling: the fetch effect runs fetchNFTs; a card click sets the
selection, and only rendered cards — members of the current list — can be
clicked. -/
def redeemStep (walletAddress : Option String) (st : RedeemState) :
    RedeemEvent → RedeemState
  | .fetchCompleted info => fetchNFTs walletAddress info st
  | .cardClicked nft =>
    if nft ∈ st.nfts then { st with selectedNFT := some nft } else st

/-- The state of the Redeem page after any sequence of events. -/
def runRedeem (walletAddress : Option String) (events : List RedeemEvent) :
    RedeemState :=
  events.foldl (redeemStep walletAddress) redeemPageStart

/-- What the Redeem page renders: the connect prompt, the message that no
redeemable NFTs were found, or the grid of NFT cards. -/
inductive RedeemView where
  | connectPrompt
  | noNFTsMsg
  | nftGrid
deriving DecidableEq, Repr

/-- The render logic of the Redeem page. -/
def renderRedeem (walletAddress : Option String) (st : RedeemState) : RedeemView :=
  match walletAddress with
  | none => .connectPrompt
  | some _ => if st.nfts = [] then .noNFTsMsg else .nftGrid

/-- C8: handleBurn only ever alerts — for any selection state, every action it
takes is an alert (no backend call and no transaction submission occurs), and
for a selected NFT the single action is the alert naming its asset id. -/
theorem redeem_burn_only_alerts (sel : Option NFTAsset) :
    (∀ a ∈ handleBurn sel, ∃ m, a = .alertMsg m)
    ∧ (∀ e, .backendCall e ∉ handleBurn sel)
    ∧ (∀ d, .submitTxn d ∉ handleBurn sel)
    ∧ (∀ nft, sel = some nft →
        handleBurn sel = [.alertMsg ("Burn NFT with Asset ID: " ++ toString nft.assetId)]) := by
  cases sel with
  | none =>
    refine ⟨?_, ?_, ?_, ?_⟩
    · intro a ha
      simp [handleBurn] at ha
      exact ⟨_, ha⟩
    · intro e he; simp [handleBurn] at he
    · intro d hd; simp [handleBurn] at hd
    · intro nft hn; simp at hn
  | some nft0 =>
    refine ⟨?_, ?_, ?_, ?_⟩
    · intro a ha
      simp [handleBurn] at ha
      exact ⟨_, ha⟩
    · intro e he; simp [handleBurn] at he
    · intro d hd; simp [handleBurn] at hd
    · intro nft hn
      have : nft0 = nft := by simpa using hn
      simp [handleBurn, this]

/-- C8 witness: burning a concrete selected NFT produces exactly the alert
naming its asset id, and no transaction submission. -/
theorem redeem_burn_only_alerts_witness :
    handleBurn (some ⟨7, "Ticket", "TCK", 1⟩) =
      [.alertMsg ("Burn NFT with Asset ID: " ++ toString (7 : ℕ))]
    ∧ UIAction.submitTxn "redeem" ∉ handleBurn (some ⟨7, "Ticket", "TCK", 1⟩) := by
  have h := redeem_burn_only_alerts (some ⟨7, "Ticket", "TCK", 1⟩)
  exact ⟨h.2.2.2 ⟨7, "Ticket", "TCK", 1⟩ rfl, h.2.2.1 "redeem"⟩

/-- C9: with any wallet connected, after any sequence of fetch completions and
card clicks the NFT list is still empty and nothing is selected, so the page
renders the no-redeemable-NFTs message, whatever the account actually holds. -/
theorem redeem_list_always_empty (w : String) (events : List RedeemEvent) :
    (runRedeem (some w) events).nfts = []
    ∧ (runRedeem (some w) events).selectedNFT = none
    ∧ renderRedeem (some w) (runRedeem (some w) events) = .noNFTsMsg := by
  have key : ∀ (es : List RedeemEvent) (st : RedeemState),
      st.nfts = [] → st.selectedNFT = none →
      (es.foldl (redeemStep (some w)) st).nfts = []
      ∧ (es.foldl (redeemStep (some w)) st).selectedNFT = none := by
    intro es
    induction es with
    | nil => intro st h1 h2; exact ⟨h1, h2⟩
    | cons e rest ih =>
      intro st h1 h2
      cases e with
      | fetchCompleted info =>
        exact ih _ (by simp [redeemStep, fetchNFTs, h1]) (by simp [redeemStep, fetchNFTs, h2])
      | cardClicked nft =>
        have hmem : nft ∉ st.nfts := by simp [h1]
        exact ih _ (by simp [redeemStep, hmem, h1]) (by simp [redeemStep, hmem, h2])
  obtain ⟨h1, h2⟩ := key events redeemPageStart rfl rfl
  have e1 : (runRedeem (some w) events).nfts = [] := by
    rw [runRedeem]; exact h1
  have e2 : (runRedeem (some w) events).selectedNFT = none := by
    rw [runRedeem]; exact h2
  exact ⟨e1, e2, by simp [renderRedeem, e1]⟩

/-- C9 witness: a connected wallet that actually holds a supply-1 asset still
sees the no-redeemable-NFTs message after the fetch completes. -/
theorem redeem_list_always_empty_witness :
    renderRedeem (some "ACCT")
      (runRedeem (some "ACCT") [.fetchCompleted ⟨[⟨31, 1, 0, "Ticket", "TCK"⟩]⟩]) =
      .noNFTsMsg :=
  (redeem_list_always_empty "ACCT" [.fetchCompleted ⟨[⟨31, 1, 0, "Ticket", "TCK"⟩]⟩]).2.2

/-! ### Wallet context (WalletContext.tsx) and navigation bar (Navbar.tsx)

Destructuring a member out of the context value is dynamic member access: a
member the provided object does not carry comes back as the undefined value,
and calling it raises a TypeError.  The context value is modelled as the
association list of members the provider actually passes. -/

/-- A JavaScript value, as far as the wallet context needs: undefined, null,
a string, a function, or a non-callable object. -/
inductive JsVal where
  | jsUndefined
  | jsNull
  | strVal (s : String)
  | funcVal (tag : String)
  | objVal (tag : String)
deriving DecidableEq, Repr

/-- The value WalletContext.Provider supplies (WalletContext.tsx line 50):
walletAddress, peraWallet, connectWallet, disconnectWallet — and nothing else. -/
def walletProviderValue (walletAddress : Option String) : List (String × JsVal) :=
  [("walletAddress", match walletAddress with
      | none => .jsNull
      | some a => .strVal a),
   ("peraWallet", .objVal "PeraWalletConnect"),
   ("connectWallet", .funcVal "connectWallet"),
   ("disconnectWallet", .funcVal "disconnectWallet")]

/-- Dynamic member access on an object: a missing member is undefined. -/
def getMember (o : List (String × JsVal)) (k : String) : JsVal :=
  match o.lookup k with
  | some v => v
  | none => .jsUndefined

/-- Outcome of the Navbar connect handler. -/
inductive ConnectOutcome where
  | updated (addr : String)
  | caughtError (msg : String)
  | noAccounts
deriving DecidableEq, Repr

/-- Navbar.tsx connectWallet (lines 13 to 25): destructure setWalletAddress
from the useWallet() context value, await peraWallet.connect(); when it
returns a non-empty account list, call setWalletAddress on the first account.
Calling a value that is not a function raises a TypeError, which the
surrounding try/catch catches and logs, leaving the displayed address
unchanged. -/
def navbarConnectWallet (ctx : List (String × JsVal)) (accounts : List String) :
    ConnectOutcome :=
  match accounts with
  | [] => .noAccounts
  | a :: _ =>
    match getMember ctx "setWalletAddress" with
    | .funcVal _ => .updated a
    | _ => .caughtError "TypeError: setWalletAddress is not a function"

/-- C10: the provider value has no setWalletAddress member — its members are
exactly walletAddress, peraWallet, connectWallet and disconnectWallet — so the
Navbar handler reads undefined for it, and a connect that succeeds with a
non-empty account list raises a TypeError instead of ever reaching the
updated outcome. -/
theorem navbar_connect_throws (w : Option String) (accounts : List String)
    (a : String) (rest : List String) (hacc : accounts = a :: rest) :
    (walletProviderValue w).map Prod.fst =
      ["walletAddress", "peraWallet", "connectWallet", "disconnectWallet"]
    ∧ getMember (walletProviderValue w) "setWalletAddress" = .jsUndefined
    ∧ navbarConnectWallet (walletProviderValue w) accounts =
        .caughtError "TypeError: setWalletAddress is not a function"
    ∧ ∀ addr, navbarConnectWallet (walletProviderValue w) accounts ≠ .updated addr := by
  have hm : getMember (walletProviderValue w) "setWalletAddress" = .jsUndefined := by
    cases w <;> rfl
  have hrun : navbarConnectWallet (walletProviderValue w) accounts =
      .caughtError "TypeError: setWalletAddress is not a function" := by
    rw [hacc]
    simp only [navbarConnectWallet, hm]
  refine ⟨by cases w <;> rfl, hm, hrun, ?_⟩
  intro addr h
  rw [hrun] at h
  exact absurd h (by simp)

/-- C10 witness: with a disconnected context and a successful connection
returning one account, the handler ends in the caught TypeError and the
member really is undefined. -/
theorem navbar_connect_throws_witness :
    getMember (walletProviderValue none) "setWalletAddress" = .jsUndefined
    ∧ navbarConnectWallet (walletProviderValue none) ["ACCT1"] =
        .caughtError "TypeError: setWalletAddress is not a function" := by
  have h := navbar_connect_throws none ["ACCT1"] "ACCT1" [] rfl
  exact ⟨h.2.1, h.2.2.1⟩

/-! ### Redemption protocol (redeemV4.py, described by the spec and README;
the script itself is not in the repository snapshot, so these definitions are
modelled from the spec). -/

/-- Modelled from the spec: the ledger state the redemption of one token
touches — the microAlgo balances of the redeemer and the escrow, and the
units of the supply-1 asset each of them holds (redeemV4.py is absent from
the snapshot). -/
structure RedeemLedger where
  redeemerAlgo : ℕ
  escrowAlgo : ℕ
  redeemerUnits : ℕ
  escrowUnits : ℕ
deriving DecidableEq, Repr

/-- Modelled from the spec: the two transaction kinds of the redemption group
of section 4.4 step 6 — the redeemer sends asset units to the escrow, the
escrow pays microAlgos to the redeemer. -/
inductive RedeemTxn where
  | assetToEscrow (units : ℕ)
  | payToRedeemer (micro : ℕ)
deriving DecidableEq, Repr

/-- Modelled from the spec: ledger semantics of a single transaction, which
fails when the sender lacks the asset units or the balance it spends. -/
def applyTxn (st : RedeemLedger) : RedeemTxn → Option RedeemLedger
  | .assetToEscrow units =>
    if units ≤ st.redeemerUnits then
      some { st with
        redeemerUnits := st.redeemerUnits - units
        escrowUnits := st.escrowUnits + units }
    else none
  | .payToRedeemer micro =>
    if micro ≤ st.escrowAlgo then
      some { st with
        escrowAlgo := st.escrowAlgo - micro
        redeemerAlgo := st.redeemerAlgo + micro }
    else none

/-- Modelled from the spec: sequential application of a transaction group;
the group fails as soon as any member fails. -/
def applyGroup (st : RedeemLedger) : List RedeemTxn → Option RedeemLedger
  | [] => some st
  | t :: rest =>
    match applyTxn st t with
    | some st2 => applyGroup st2 rest
    | none => none

/-- Modelled from the spec: atomic commit — the ledger commits the whole
group, or rejects it leaving the state unchanged. -/
def commitGroup (st : RedeemLedger) (g : List RedeemTxn) : RedeemLedger :=
  match applyGroup st g with
  | some st2 => st2
  | none => st

/-- Modelled from the spec: the redemption group submitted by the mutating
step — leg (a) transfers the single asset unit to the escrow, leg (b) pays
the computed amount to the redeemer. -/
def redemptionGroup (payout : ℕ) : List RedeemTxn :=
  [.assetToEscrow 1, .payToRedeemer payout]

/-- C2: the redemption submits exactly the two stated legs as one atomic
group; whenever the group does not apply — in particular when the second
leg is rejected for lack of escrow balance, or the first for lack of the
asset unit — the committed state is the original one, so the redeemer keeps
the asset and no payout occurs; and when both legs apply, the commit is the
fully swapped state. -/
theorem redemption_atomic (st : RedeemLedger) (payout : ℕ) :
    (redemptionGroup payout).length = 2
    ∧ redemptionGroup payout = [.assetToEscrow 1, .payToRedeemer payout]
    ∧ (applyGroup st (redemptionGroup payout) = none →
        commitGroup st (redemptionGroup payout) = st)
    ∧ (st.escrowAlgo < payout → commitGroup st (redemptionGroup payout) = st)
    ∧ (st.redeemerUnits = 0 → commitGroup st (redemptionGroup payout) = st)
    ∧ (1 ≤ st.redeemerUnits → payout ≤ st.escrowAlgo →
        commitGroup st (redemptionGroup payout) =
          { redeemerAlgo := st.redeemerAlgo + payout
            escrowAlgo := st.escrowAlgo - payout
            redeemerUnits := st.redeemerUnits - 1
            escrowUnits := st.escrowUnits + 1 }) := by
  refine ⟨rfl, rfl, ?_, ?_, ?_, ?_⟩
  · intro h
    simp [commitGroup, h]
  · intro h
    have h2 : ¬ payout ≤ st.escrowAlgo := not_le.mpr h
    by_cases h1 : 1 ≤ st.redeemerUnits
    · simp [commitGroup, applyGroup, applyTxn, redemptionGroup, h1, h2]
    · simp [commitGroup, applyGroup, applyTxn, redemptionGroup, h1]
  · intro h
    have h1 : ¬ 1 ≤ st.redeemerUnits := by omega
    simp [commitGroup, applyGroup, applyTxn, redemptionGroup, h1]
  · intro h1 h2
    simp [commitGroup, applyGroup, applyTxn, redemptionGroup, h1, h2]

/-- C2 witness: a ledger where the redeemer holds the unit but the escrow
cannot cover the payout rejects the group unchanged, and one where it can
commits the swap. -/
theorem redemption_atomic_witness :
    commitGroup ⟨10, 3, 1, 0⟩ (redemptionGroup 5) = ⟨10, 3, 1, 0⟩
    ∧ commitGroup ⟨10, 8, 1, 0⟩ (redemptionGroup 5) = ⟨15, 3, 0, 1⟩ := by
  refine ⟨(redemption_atomic ⟨10, 3, 1, 0⟩ 5).2.2.2.1 (by decide), ?_⟩
  have h := (redemption_atomic ⟨10, 8, 1, 0⟩ 5).2.2.2.2.2 (by decide) (by decide)
  simpa using h

/-- Modelled from the spec: the payout computation of section 4.4 step 5 —
use the stored locked amount when the metadata carries one, otherwise the
escrow balance minus the minimum reserve and fee buffer, clamped at zero
(redeemV4.py is absent from the snapshot). -/
def computePayout (storedLocked : Option ℤ)
    (escrowBalance minReserve feeBuffer : ℤ) : ℤ :=
  match storedLocked with
  | some a => a
  | none => max (escrowBalance - minReserve - feeBuffer) 0

/-- C3: the payout equals the stored locked amount whenever that field is
present; the fallback is never negative, equals the unclamped difference when
that difference is non-negative, and agrees with the primary path whenever
the escrow still holds exactly the locked amount plus reserve and fees. -/
theorem payout_fallback_clamped (a escrowBalance minReserve feeBuffer : ℤ)
    (ha : 0 ≤ a) :
    computePayout (some a) escrowBalance minReserve feeBuffer = a
    ∧ 0 ≤ computePayout none escrowBalance minReserve feeBuffer
    ∧ (0 ≤ escrowBalance - minReserve - feeBuffer →
        computePayout none escrowBalance minReserve feeBuffer =
          escrowBalance - minReserve - feeBuffer)
    ∧ computePayout none (a + minReserve + feeBuffer) minReserve feeBuffer =
        computePayout (some a) (a + minReserve + feeBuffer) minReserve feeBuffer := by
  refine ⟨rfl, le_max_right _ _, ?_, ?_⟩
  · intro h
    simp [computePayout, max_eq_left h]
  · simp only [computePayout]
    have : a + minReserve + feeBuffer - minReserve - feeBuffer = a := by ring
    rw [this, max_eq_left ha]

/-- C3 witness: with locked amount five million the primary path returns it;
with no stored amount, a drained escrow yields zero rather than a negative
payout, and a properly funded escrow yields the locked amount. -/
theorem payout_fallback_clamped_witness :
    computePayout (some 5000000) 5300000 200000 100000 = 5000000
    ∧ (0 : ℤ) ≤ computePayout none 100000 200000 100000
    ∧ computePayout none 5300000 200000 100000 =
        computePayout (some 5000000) 5300000 200000 100000 := by
  have h := payout_fallback_clamped 5000000 5300000 200000 100000 (by decide)
  refine ⟨h.1, (payout_fallback_clamped 5000000 100000 200000 100000 (by decide)).2.1, ?_⟩
  have h4 := h.2.2.2
  norm_num at h4 ⊢
  simp only [computePayout] at h4 ⊢
  exact h4

/-! ### Escrow derivation (mintV4.py, described by the spec and README;
the script itself is not in the repository snapshot, so these definitions are
modelled from the spec). -/

/-- Modelled from the spec: fixed-width big-endian encoding of a numeric
field into eight bytes, so the canonical byte string has no variable-width
ambiguity. -/
def encodeNat64 (n : ℕ) : List ℕ :=
  (List.range 8).map (fun i => n / 256 ^ (7 - i) % 256)

/-- Modelled from the spec: the inputs of derive — creator address bytes,
per-token nonce, locked amount, and the redemption-conditions program bytes. -/
structure DeriveInputs where
  creatorAddress : List ℕ
  nonce : ℕ
  lockedAmount : ℕ
  conditions : List ℕ
deriving DecidableEq, Repr

/-- Modelled from the spec: the escrow authority program bytes — a versioned
concatenation of the encoded inputs and the conditions program (the policy
compiler of the design notes). -/
def escrowProgramOf (i : DeriveInputs) : List ℕ :=
  [4] ++ encodeNat64 i.nonce ++ encodeNat64 i.lockedAmount
    ++ i.creatorAddress ++ i.conditions

/-- Modelled from the spec: addressOf is the one-way hash of the program
bytes in the ledger addressing scheme, consumed as a black box; a concrete
stand-in digest keeps the development executable. -/
def addressOf (program : List ℕ) : ℕ :=
  program.foldl (fun h b => (h * 257 + b % 256) % 2 ^ 64) 7

/-- An escrow authority: its program bytes and its derived address. -/
structure EscrowAuthority where
  program : List ℕ
  address : ℕ
deriving DecidableEq, Repr

/-- Modelled from the spec: derive produces the authority program and the
address of those program bytes. -/
def derive (i : DeriveInputs) : EscrowAuthority :=
  { program := escrowProgramOf i, address := addressOf (escrowProgramOf i) }

/-- The context a derivation runs in — session and time, distinguishing a
mint-time call from a redemption-time call in another process. -/
structure RunContext where
  sessionId : ℕ
  timestamp : ℕ
deriving DecidableEq, Repr

/-- Modelled from the spec: derive as invoked from a run context; per the
spec it is a pure function of its four inputs and reads nothing from the
context. -/
def deriveInRun (_ctx : RunContext) (i : DeriveInputs) : EscrowAuthority :=
  derive i

/-- C7: two calls of derive on byte-identical inputs — in whatever run
contexts, such as one at mint time and one at redemption time — return a
byte-identical authority program and the identical derived address, which is
the address of those program bytes. -/
theorem derive_deterministic (c1 c2 : RunContext) (i1 i2 : DeriveInputs)
    (h : i1 = i2) :
    (deriveInRun c1 i1).program = (deriveInRun c2 i2).program
    ∧ (deriveInRun c1 i1).address = (deriveInRun c2 i2).address
    ∧ (deriveInRun c1 i1).address = addressOf (deriveInRun c1 i1).program := by
  subst h
  refine ⟨rfl, rfl, ?_⟩
  simp [deriveInRun, derive]

/-- C7 witness: a concrete derivation at mint time and again at redemption
time, from metadata recovered on-chain, yields the same program and address. -/
theorem derive_deterministic_witness :
    (deriveInRun ⟨1, 100⟩ ⟨[9, 9], 42, 5000000, [1, 2, 3]⟩).program =
      (deriveInRun ⟨2, 900000⟩ ⟨[9, 9], 42, 5000000, [1, 2, 3]⟩).program
    ∧ (deriveInRun ⟨1, 100⟩ ⟨[9, 9], 42, 5000000, [1, 2, 3]⟩).address =
        (deriveInRun ⟨2, 900000⟩ ⟨[9, 9], 42, 5000000, [1, 2, 3]⟩).address := by
  have h := derive_deterministic ⟨1, 100⟩ ⟨2, 900000⟩
    ⟨[9, 9], 42, 5000000, [1, 2, 3]⟩ ⟨[9, 9], 42, 5000000, [1, 2, 3]⟩ rfl
  exact ⟨h.1, h.2.1⟩

end NFTValueStore
